import Mathlib

/-!
Verification of the netcoredbg binary-resolution extension (`src/binary_manager.rs`,
`src/logger.rs`) as a shallow embedding in Lean 4.

The Rust code is effectful: it reads the platform, queries GitHub for the latest
release, inspects and mutates the filesystem, and appends to a log file.  The
embedding makes those effects explicit:

* the host environment (`zed::current_platform`, the filesystem, the network's
  answers to successive `latest_github_release` calls, the success of each
  fallible host operation, the clock) is a record `Env` that is read but never
  written (the archive's contents are abstracted by `Env.archiveHasExe`:
  whether extraction yields the executable at the root of the version
  directory);
* the mutable process state (the `OnceLock` cache slot, the number of network
  metadata fetches performed so far, the log file's lines) is a record `St`
  threaded through every function, so each Rust method becomes a Lean function
  `Env → St → α × St`;
* Rust `Result<T, String>` becomes `Except String T`, with the exact error
  message strings of the source; `std::env::current_dir()` is modelled as the
  infallible `Env.cwd` (its failure branch is not exercised by any claim);
* paths are strings with Unix-style semantics: `isAbsolutePath` is
  `startsWith "/"` and `joinPath a b = a ++ "/" ++ b`, matching
  `Path::is_absolute` / `Path::join` on the platforms the assets target.
-/

deriving instance DecidableEq for Except

/-- Operating systems distinguished by `zed::current_platform` (zed_extension_api `Os`). -/
inductive Os where
  | linux
  | mac
  | windows
deriving DecidableEq, Repr

/-- Architectures distinguished by `zed::current_platform` (zed_extension_api `Architecture`). -/
inductive Architecture where
  | aarch64
  | x86
  | x8664
deriving DecidableEq, Repr

/-- Archive kinds accepted by `zed::download_file` (zed_extension_api `DownloadedFileType`);
only the two kinds the manager ever passes are modelled. -/
inductive DownloadedFileType where
  | zip
  | gzipTar
deriving DecidableEq, Repr

/-- One downloadable file attached to a GitHub release (zed_extension_api asset). -/
structure GithubAsset where
  name : String
  download_url : String
deriving DecidableEq, Repr

/-- The answer of `zed::latest_github_release`: a version tag and the asset list. -/
structure GithubRelease where
  version : String
  assets : List GithubAsset
deriving DecidableEq, Repr

/-- GitHub release version information (`AdapterVersion` in `binary_manager.rs`). -/
structure AdapterVersion where
  tag_name : String
  download_url : String
deriving DecidableEq, Repr

/-- A filesystem node: a regular file (carrying its executable-permission bit,
which `Path::exists` / `Path::is_file` never consult) or a directory. -/
inductive FsNode where
  | file (exec : Bool)
  | dir
deriving DecidableEq, Repr

/-- The host environment a single resolution runs against (read-only). -/
structure Env where
  /-- `zed::current_platform()`. -/
  platform : Os × Architecture
  /-- `std::env::current_dir()`, modelled as infallible. -/
  cwd : String
  /-- The filesystem: absolute path → node. -/
  fs : List (String × FsNode)
  /-- The answer to the n-th `zed::latest_github_release` call of the process
  (raw error string, or the release); out-of-range calls fail. -/
  releases : List (Except String GithubRelease)
  /-- Whether `tempfile::Builder::tempdir()` succeeds. -/
  tempDirOk : Bool
  /-- Whether `zed::download_file` succeeds. -/
  downloadOk : Bool
  /-- Whether `std::fs::create_dir_all` succeeds. -/
  mkdirOk : Bool
  /-- Whether `fs_extra::dir::copy` succeeds. -/
  copyOk : Bool
  /-- Whether the downloaded archive contains the platform executable at its
  root, i.e. whether `version_dir.join(exe_name).exists()` holds after the
  content-only copy. -/
  archiveHasExe : Bool
  /-- Whether `zed::make_file_executable` succeeds. -/
  makeExecOk : Bool
  /-- Whether `OpenOptions::open` of the log file succeeds (and the `writeln!`
  with it). -/
  logOpenOk : Bool
  /-- `SystemTime::now` as Unix epoch seconds. -/
  time : Nat
deriving Repr

/-- The mutable process state threaded through the resolver. -/
structure St where
  /-- `BinaryManager.cached_binary_path` (`OnceLock<String>`). -/
  cache : Option String
  /-- How many `zed::latest_github_release` network calls happened so far. -/
  fetches : Nat
  /-- The lines of `netcoredbg_extension_debug.log`. -/
  log : List String
deriving DecidableEq, Repr

/-- Rust `str::ends_with`: the right operand is a suffix of the character
sequence.  (Defined over `String.data` rather than `String.endsWith` so that
it evaluates inside the kernel; the two agree on every input.) -/
def ends_with (s suffix : String) : Bool :=
  List.isSuffixOf suffix.data s.data

/-- Rust `str::starts_with` on the character sequence. -/
def starts_with (s pre : String) : Bool :=
  List.isPrefixOf pre.data s.data

/-- `Path::is_absolute`, Unix-style. -/
def isAbsolutePath (p : String) : Bool :=
  starts_with p "/"

/-- `Path::join` with a relative right operand, Unix-style. -/
def joinPath (base p : String) : String :=
  base ++ "/" ++ p

/-- A path as the OS resolves it: relative paths are taken against the current
working directory. -/
def resolvePath (cwd p : String) : String :=
  if isAbsolutePath p then p else joinPath cwd p

/-- Look a path up in the filesystem (`Path::exists` / `Path::is_file` both
start here). -/
def Env.lookupFs (env : Env) (p : String) : Option FsNode :=
  (env.fs.find? (fun e => e.1 == resolvePath env.cwd p)).map (fun e => e.2)

/-- `Path::exists`. -/
def Env.pathExists (env : Env) (p : String) : Bool :=
  (env.lookupFs p).isSome

/-- `Path::is_file`. -/
def Env.pathIsFile (env : Env) (p : String) : Bool :=
  match env.lookupFs p with
  | some (FsNode.file _) => true
  | _ => false

/-- `Logger::DEBUG_ENABLED` in `logger.rs`. -/
def loggerDebugEnabled : Bool := true

/-- `Logger::debug_log` in `logger.rs`: when enabled, open
`netcoredbg_extension_debug.log` in create-or-append mode and append
`[<unix_seconds>] <message>`; an open or write failure is discarded
(`if let Ok(..)` / `let _ =`), so the function is total and returns the
(possibly unchanged) log. -/
def debug_log (openOk : Bool) (time : Nat) (log : List String) (message : String) : List String :=
  if ¬ loggerDebugEnabled then log
  else if openOk then log ++ ["[" ++ toString time ++ "] " ++ message]
  else log

/-- A `self.logger.debug_log(message)` call inside the manager. -/
def St.logMsg (st : St) (env : Env) (message : String) : St :=
  { st with log := debug_log env.logOpenOk env.time st.log message }

/-- `BinaryManager::get_executable_name`. -/
def get_executable_name (platform : Os) : String :=
  if platform = Os.windows then "netcoredbg.exe" else "netcoredbg"

/-- `BinaryManager::get_platform_asset_name`: match on (OS, architecture),
producing `(platform_arch, extension)` or the unsupported-x86 error, then
format `netcoredbg-{platform_arch}{extension}`. -/
def get_platform_asset_name (p : Os × Architecture) : Except String String :=
  match (match p with
    | (Os.linux, Architecture.x8664) => Except.ok ("linux-amd64", ".tar.gz")
    | (Os.linux, Architecture.aarch64) => Except.ok ("linux-arm64", ".tar.gz")
    | (Os.mac, Architecture.x8664) => Except.ok ("osx-amd64", ".tar.gz")
    | (Os.mac, Architecture.aarch64) => Except.ok ("osx-arm64", ".tar.gz")
    | (Os.windows, Architecture.x8664) => Except.ok ("win64", ".zip")
    | (Os.windows, Architecture.aarch64) => Except.ok ("win64", ".zip")
    | (_, Architecture.x86) =>
        Except.error "Unsupported architecture: x86 (32-bit). NetCoreDbg only supports 64-bit architectures (amd64/arm64)." : Except String (String × String)) with
  | Except.error e => Except.error e
  | Except.ok (platform_arch, extension) =>
      Except.ok ("netcoredbg-" ++ platform_arch ++ extension)

/-- `zed::latest_github_release` against the modelled network: the process's
n-th call gets `env.releases[n]` and the fetch counter advances. -/
def latest_github_release (env : Env) (st : St) : Except String GithubRelease × St :=
  (env.releases.getD st.fetches (Except.error "network unavailable"),
   { st with fetches := st.fetches + 1 })

/-- The value component of `fetch_latest_release`, as a function of the fetch
index alone (the call's only state effect is advancing that index). -/
def fetchResult (env : Env) (n : Nat) : Except String AdapterVersion :=
  match env.releases.getD n (Except.error "network unavailable") with
  | Except.error e => Except.error ("Failed to fetch latest release: " ++ e)
  | Except.ok release =>
    match get_platform_asset_name env.platform with
    | Except.error e => Except.error e
    | Except.ok asset_name =>
      match release.assets.find? (fun asset => asset.name == asset_name) with
      | none =>
          Except.error ("No compatible asset found for platform. Looking for: '"
            ++ asset_name ++ "'. Available assets: ["
            ++ String.intercalate ", " (release.assets.map (fun a => a.name)) ++ "]")
      | some asset => Except.ok ⟨release.version, asset.download_url⟩

/-- `BinaryManager::fetch_latest_release`: query the latest release, compute the
platform asset name, and find the matching asset by exact name, reporting the
requested name and every available asset name on a miss. -/
def fetch_latest_release (env : Env) (st : St) : Except String AdapterVersion × St :=
  match latest_github_release env st with
  | (Except.error e, st) => (Except.error ("Failed to fetch latest release: " ++ e), st)
  | (Except.ok release, st) =>
    match get_platform_asset_name env.platform with
    | Except.error e => (Except.error e, st)
    | Except.ok asset_name =>
      match release.assets.find? (fun asset => asset.name == asset_name) with
      | none =>
          (Except.error ("No compatible asset found for platform. Looking for: '"
            ++ asset_name ++ "'. Available assets: ["
            ++ String.intercalate ", " (release.assets.map (fun a => a.name)) ++ "]"), st)
      | some asset => (Except.ok ⟨release.version, asset.download_url⟩, st)

/-- The archive-kind derivation inside `download_and_extract_binary`:
`.zip` → Zip, else `.tar.gz` → GzipTar, else the unsupported-file-type error. -/
def archive_file_type (asset_name : String) : Except String DownloadedFileType :=
  if ends_with asset_name ".zip" then Except.ok DownloadedFileType.zip
  else if ends_with asset_name ".tar.gz" then Except.ok DownloadedFileType.gzipTar
  else Except.error ("Unsupported file type for asset: " ++ asset_name)

/-- The temporary directory's path as reported in the log
(`tempfile::Builder` with prefix `netcoredbg_v<tag>_`). -/
def tempDirPath (tag : String) : String :=
  "/tmp/netcoredbg_v" ++ tag ++ "_XXXXXX"

/-- `BinaryManager::download_and_extract_binary`: fetch the release again,
derive the archive kind, create a temp directory, download and extract into
it, create the version directory, copy content-only into it, check the
executable appeared, mark it executable and return its absolute path.  Each
fallible host step is governed by the corresponding `Env` flag and keeps the
source's error message. -/
def download_and_extract_binary (env : Env) (st : St) : Except String String × St :=
  match fetch_latest_release env st with
  | (Except.error e, st) => (Except.error e, st)
  | (Except.ok version, st) =>
    match get_platform_asset_name env.platform with
    | Except.error e => (Except.error e, st)
    | Except.ok asset_name =>
      match archive_file_type asset_name with
      | Except.error e => (Except.error e, st)
      | Except.ok _file_type =>
        let version_dir := "netcoredbg_v" ++ version.tag_name
        if ¬ env.tempDirOk then
          (Except.error "Failed to create secure temp directory: io error", st)
        else
          let st := st.logMsg env ("Created secure temp directory: " ++ tempDirPath version.tag_name)
          if ¬ env.downloadOk then
            (Except.error "Failed to download netcoredbg: download error", st)
          else if ¬ env.mkdirOk then
            (Except.error "Failed to create version directory: io error", st)
          else if ¬ env.copyOk then
            (Except.error "Failed to copy extracted content: copy error", st)
          else
            let exe_name := get_executable_name env.platform.1
            let binary_path := joinPath version_dir exe_name
            if ¬ env.archiveHasExe then
              (Except.error ("netcoredbg executable not found at: " ++ binary_path), st)
            else if ¬ env.makeExecOk then
              (Except.error "Failed to make file executable: host error", st)
            else
              (Except.ok (joinPath env.cwd binary_path), st)

/-- `OnceLock::set` followed by discarding the result (`let _ = ...set(v)`):
an already-populated slot keeps its first value. -/
def cacheSet (slot : Option String) (value : String) : Option String :=
  match slot with
  | some v => some v
  | none => some value

/-- Priority 4 of `get_binary_path`: call `download_and_extract_binary`, and on
success log and store the path in the cache slot via `OnceLock::set`. -/
def tier4 (env : Env) (st : St) : Except String String × St :=
  match download_and_extract_binary env st with
  | (Except.error e, st) => (Except.error e, st)
  | (Except.ok binary_path, st) =>
    let st := st.logMsg env ("Successfully downloaded and extracted to: " ++ binary_path)
    let st := { st with cache := cacheSet st.cache binary_path }
    (Except.ok binary_path, st)

/-- Priorities 3 and 4 of `get_binary_path` (the code after the in-memory-cache
block): fetch the latest release, return the existing on-disk binary for that
version if present, otherwise download; either success path stores the result
in the cache slot via `OnceLock::set`. -/
def tiers34 (env : Env) (st : St) : Except String String × St :=
  let st := st.logMsg env "Fetching latest release info from GitHub to check for existing binary"
  match fetch_latest_release env st with
  | (Except.error e, st) => (Except.error e, st)
  | (Except.ok version, st) =>
    let st := st.logMsg env ("Found latest version: " ++ version.tag_name)
    let version_dir := "netcoredbg_v" ++ version.tag_name
    let exe_name := get_executable_name env.platform.1
    let existing_binary_path := joinPath version_dir exe_name
    if env.pathExists existing_binary_path then
      let st := st.logMsg env ("Found existing binary on disk: " ++ existing_binary_path)
      let path_str := joinPath env.cwd existing_binary_path
      let st := { st with cache := cacheSet st.cache path_str }
      (Except.ok path_str, st)
    else
      let st := st.logMsg env "No existing binary found, downloading from GitHub"
      tier4 env st

/-- `BinaryManager::get_binary_path`: priority 1 the user-provided path
(must exist and be a file; made absolute and returned, bypassing cache and
network), priority 2 the in-memory cache slot (returned verbatim when its file
still exists, skipped when stale), then priorities 3 and 4. -/
def get_binary_path (env : Env) (user_provided_path : Option String) (st : St) :
    Except String String × St :=
  let st := st.logMsg env "Starting get_binary_path"
  match user_provided_path with
  | some user_path =>
    let st := st.logMsg env ("Using user-provided path: " ++ user_path)
    if ¬ env.pathExists user_path then
      (Except.error ("User-provided netcoredbg binary not found at: " ++ user_path), st)
    else if ¬ env.pathIsFile user_path then
      (Except.error ("User-provided path is not a file: " ++ user_path), st)
    else
      let absolute_path :=
        if isAbsolutePath user_path then user_path else joinPath env.cwd user_path
      (Except.ok absolute_path, st)
  | none =>
    match st.cache with
    | some cached_path =>
      if env.pathExists cached_path then
        let st := st.logMsg env ("Using cached binary path: " ++ cached_path)
        (Except.ok cached_path, st)
      else
        let st := st.logMsg env "Cached binary no longer exists, will re-download"
        tiers34 env st
    | none => tiers34 env st

/-- `BinaryManager::validate_binary`: the path must exist and be a regular
file; a pure read of the filesystem. -/
def validate_binary (env : Env) (binary_path : String) : Except String Unit :=
  if ¬ env.pathExists binary_path then
    Except.error ("netcoredbg binary not found at: " ++ binary_path)
  else if ¬ env.pathIsFile binary_path then
    Except.error ("netcoredbg path is not a file: " ++ binary_path)
  else
    Except.ok ()

/-- The value `download_and_extract_binary` computes when its internal fetch is
the n-th of the process; the call's only other state effects are one fetch and
log lines. -/
def downloadResult (env : Env) (n : Nat) : Except String String :=
  match fetchResult env n with
  | Except.error e => Except.error e
  | Except.ok version =>
    match get_platform_asset_name env.platform with
    | Except.error e => Except.error e
    | Except.ok asset_name =>
      match archive_file_type asset_name with
      | Except.error e => Except.error e
      | Except.ok _file_type =>
        if ¬ env.tempDirOk then
          Except.error "Failed to create secure temp directory: io error"
        else if ¬ env.downloadOk then
          Except.error "Failed to download netcoredbg: download error"
        else if ¬ env.mkdirOk then
          Except.error "Failed to create version directory: io error"
        else if ¬ env.copyOk then
          Except.error "Failed to copy extracted content: copy error"
        else
          let binary_path :=
            joinPath ("netcoredbg_v" ++ version.tag_name) (get_executable_name env.platform.1)
          if ¬ env.archiveHasExe then
            Except.error ("netcoredbg executable not found at: " ++ binary_path)
          else if ¬ env.makeExecOk then
            Except.error "Failed to make file executable: host error"
          else
            Except.ok (joinPath env.cwd binary_path)

/-- The value `tiers34` computes when its first fetch is the n-th of the process. -/
def tiers34Result (env : Env) (n : Nat) : Except String String :=
  match fetchResult env n with
  | Except.error e => Except.error e
  | Except.ok version =>
    let existing :=
      joinPath ("netcoredbg_v" ++ version.tag_name) (get_executable_name env.platform.1)
    if env.pathExists existing then Except.ok (joinPath env.cwd existing)
    else downloadResult env (n + 1)

/-- How many network fetches `tiers34` performs when its first fetch is the
n-th of the process: one when the fetch fails or the binary is already on
disk, two when it falls through to the download. -/
def tiers34Steps (env : Env) (n : Nat) : Nat :=
  match fetchResult env n with
  | Except.error _ => 1
  | Except.ok version =>
    if env.pathExists
        (joinPath ("netcoredbg_v" ++ version.tag_name) (get_executable_name env.platform.1))
    then 1 else 2

/-- The cache slot after a resolution step with outcome `r`: attempted set
(first value wins) on success, untouched on failure. -/
def cacheAfter (cache : Option String) (r : Except String String) : Option String :=
  match r with
  | Except.ok p => cacheSet cache p
  | Except.error _ => cache

/-- The value `get_binary_path` computes, as a pure function of the environment,
the argument, the cache slot's content and the fetch index (note it does not
read the log or the logging flags). -/
def gbpResult (env : Env) (u : Option String) (cache : Option String) (n : Nat) :
    Except String String :=
  match u with
  | some user_path =>
    if ¬ env.pathExists user_path then
      Except.error ("User-provided netcoredbg binary not found at: " ++ user_path)
    else if ¬ env.pathIsFile user_path then
      Except.error ("User-provided path is not a file: " ++ user_path)
    else
      Except.ok (if isAbsolutePath user_path then user_path else joinPath env.cwd user_path)
  | none =>
    match cache with
    | some cached_path =>
      if env.pathExists cached_path then Except.ok cached_path else tiers34Result env n
    | none => tiers34Result env n

/-- The cache slot after `get_binary_path`, as a pure function of environment,
argument, previous slot content and fetch index. -/
def gbpCache (env : Env) (u : Option String) (cache : Option String) (n : Nat) :
    Option String :=
  match u with
  | some _ => cache
  | none =>
    match cache with
    | some cached_path =>
      if env.pathExists cached_path then cache
      else cacheAfter cache (tiers34Result env n)
    | none => cacheAfter cache (tiers34Result env n)

/-- The fetch count after `get_binary_path`, as a pure function of environment,
argument, previous slot content and fetch index. -/
def gbpFetches (env : Env) (u : Option String) (cache : Option String) (n : Nat) : Nat :=
  match u with
  | some _ => n
  | none =>
    match cache with
    | some cached_path =>
      if env.pathExists cached_path then n else n + tiers34Steps env n
    | none => n + tiers34Steps env n

/-- `FsNode` with its executable bit (if any) overwritten: used to state that
an operation never reads the permission bit. -/
def FsNode.withExec (b : Bool) : FsNode → FsNode
  | FsNode.file _ => FsNode.file b
  | FsNode.dir => FsNode.dir

/-- The environment with every file's executable bit overwritten by `b`. -/
def Env.withExecBits (env : Env) (b : Bool) : Env :=
  { env with fs := env.fs.map (fun e => (e.1, e.2.withExec b)) }

/-- A release carrying exactly the Linux/amd64 asset, tag `3.1.2`. -/
def relW : GithubRelease :=
  { version := "3.1.2",
    assets := [{ name := "netcoredbg-linux-amd64.tar.gz",
                 download_url := "https://example.invalid/linux" }] }

/-- A Linux/x86_64 host whose working directory holds a user binary, a
directory, and an already-extracted version directory for `relW`. -/
def envW : Env :=
  { platform := (Os.linux, Architecture.x8664)
    cwd := "/work"
    fs := [("/work/bin/netcoredbg", FsNode.file true),
           ("/work/somedir", FsNode.dir),
           ("/work/netcoredbg_v3.1.2/netcoredbg", FsNode.file true)]
    releases := [Except.ok relW]
    tempDirOk := true
    downloadOk := true
    mkdirOk := true
    copyOk := true
    archiveHasExe := true
    makeExecOk := true
    logOpenOk := true
    time := 1700000000 }

/-- Fresh process state: empty cache slot, no fetches, empty log. -/
def stW : St := { cache := none, fetches := 0, log := [] }

/-- Process state whose cache slot holds a path that exists in `envW`. -/
def stC : St := { cache := some "/work/bin/netcoredbg", fetches := 0, log := [] }

/-- Process state whose cache slot holds a path that exists nowhere. -/
def stGone : St := { cache := some "/gone", fetches := 0, log := [] }

/-- A release carrying only the Windows asset. -/
def relWin : GithubRelease :=
  { version := "v3.1.0",
    assets := [{ name := "netcoredbg-win64.zip",
                 download_url := "https://example.invalid/win" }] }

/-- A Mac/aarch64 host whose latest release has only the Windows asset. -/
def envMac : Env :=
  { platform := (Os.mac, Architecture.aarch64)
    cwd := "/work"
    fs := []
    releases := [Except.ok relWin]
    tempDirOk := true
    downloadOk := true
    mkdirOk := true
    copyOk := true
    archiveHasExe := true
    makeExecOk := true
    logOpenOk := true
    time := 0 }

/-- First release answer for the double-fetch host: tag `1.0.0`. -/
def relA : GithubRelease :=
  { version := "1.0.0",
    assets := [{ name := "netcoredbg-linux-amd64.tar.gz",
                 download_url := "https://example.invalid/a" }] }

/-- Second release answer for the double-fetch host: tag `2.0.0`. -/
def relB : GithubRelease :=
  { version := "2.0.0",
    assets := [{ name := "netcoredbg-linux-amd64.tar.gz",
                 download_url := "https://example.invalid/b" }] }

/-- A Linux/x86_64 host with an empty working directory whose successive
release fetches answer `relA` then `relB`. -/
def envC9 : Env :=
  { platform := (Os.linux, Architecture.x8664)
    cwd := "/work"
    fs := []
    releases := [Except.ok relA, Except.ok relB]
    tempDirOk := true
    downloadOk := true
    mkdirOk := true
    copyOk := true
    archiveHasExe := true
    makeExecOk := true
    logOpenOk := true
    time := 0 }

theorem fetch_latest_release_eq (env : Env) (st : St) :
    fetch_latest_release env st
      = (fetchResult env st.fetches, { st with fetches := st.fetches + 1 }) := by
  unfold fetch_latest_release latest_github_release fetchResult
  cases h1 : env.releases.getD st.fetches (Except.error "network unavailable") with
  | error e => simp [h1]
  | ok release =>
    simp only [h1]
    cases h2 : get_platform_asset_name env.platform with
    | error e => simp [h2]
    | ok asset_name =>
      simp only [h2]
      cases h3 : release.assets.find? (fun asset => asset.name == asset_name) with
      | none => simp [h3]
      | some asset => simp [h3]

theorem download_and_extract_binary_eq (env : Env) (st : St) :
    (download_and_extract_binary env st).1 = downloadResult env st.fetches
    ∧ (download_and_extract_binary env st).2.cache = st.cache
    ∧ (download_and_extract_binary env st).2.fetches = st.fetches + 1 := by
  unfold download_and_extract_binary downloadResult
  rw [fetch_latest_release_eq]
  cases hv : fetchResult env st.fetches with
  | error e => simp [hv]
  | ok version =>
    simp only [hv]
    cases ha : get_platform_asset_name env.platform with
    | error e => simp [ha]
    | ok asset_name =>
      simp only [ha]
      cases hf : archive_file_type asset_name with
      | error e => simp [hf]
      | ok ft =>
        simp only [hf]
        by_cases h1 : env.tempDirOk <;> by_cases h2 : env.downloadOk
          <;> by_cases h3 : env.mkdirOk <;> by_cases h4 : env.copyOk
          <;> by_cases h5 : env.archiveHasExe <;> by_cases h6 : env.makeExecOk
          <;> simp [h1, h2, h3, h4, h5, h6, St.logMsg]

@[simp] theorem logMsg_cache (st : St) (env : Env) (m : String) :
    (st.logMsg env m).cache = st.cache := rfl

@[simp] theorem logMsg_fetches (st : St) (env : Env) (m : String) :
    (st.logMsg env m).fetches = st.fetches := rfl

theorem download_val (env : Env) (st : St) :
    (download_and_extract_binary env st).1 = downloadResult env st.fetches :=
  (download_and_extract_binary_eq env st).1

theorem download_cache (env : Env) (st : St) :
    (download_and_extract_binary env st).2.cache = st.cache :=
  (download_and_extract_binary_eq env st).2.1

theorem download_fetches (env : Env) (st : St) :
    (download_and_extract_binary env st).2.fetches = st.fetches + 1 :=
  (download_and_extract_binary_eq env st).2.2

theorem tier4_val (env : Env) (st : St) :
    (tier4 env st).1 = downloadResult env st.fetches := by
  have h1 := download_val env st
  unfold tier4
  cases hD : download_and_extract_binary env st with
  | mk p st2 =>
    rw [hD] at h1
    cases p with
    | error e => simpa using h1
    | ok q => simpa using h1

theorem tier4_cache (env : Env) (st : St) :
    (tier4 env st).2.cache = cacheAfter st.cache (downloadResult env st.fetches) := by
  have h1 := download_val env st
  have h2 := download_cache env st
  unfold tier4 cacheAfter
  cases hD : download_and_extract_binary env st with
  | mk p st2 =>
    rw [hD] at h1 h2
    cases p with
    | error e => rw [← h1]; simpa using h2
    | ok q => rw [← h1]; simp at h2 ⊢; rw [h2]

theorem tier4_fetches (env : Env) (st : St) :
    (tier4 env st).2.fetches = st.fetches + 1 := by
  have h3 := download_fetches env st
  unfold tier4
  cases hD : download_and_extract_binary env st with
  | mk p st2 =>
    rw [hD] at h3
    cases p with
    | error e => simpa using h3
    | ok q => simpa using h3

theorem tiers34_val (env : Env) (st : St) :
    (tiers34 env st).1 = tiers34Result env st.fetches := by
  unfold tiers34 tiers34Result
  dsimp only
  rw [fetch_latest_release_eq]
  cases hv : fetchResult env (st.logMsg env "Fetching latest release info from GitHub to check for existing binary").fetches with
  | error e =>
    have hv' : fetchResult env st.fetches = Except.error e := by simpa using hv
    simp [hv']
  | ok version =>
    have hv' : fetchResult env st.fetches = Except.ok version := by simpa using hv
    simp only [hv, hv']
    by_cases hex : env.pathExists
        (joinPath ("netcoredbg_v" ++ version.tag_name) (get_executable_name env.platform.1)) = true
    · simp [hex]
    · simp only [hex]
      simp [hex, tier4_val]

theorem tiers34_cache_eq (env : Env) (st : St) :
    (tiers34 env st).2.cache = cacheAfter st.cache (tiers34Result env st.fetches) := by
  unfold tiers34 tiers34Result
  dsimp only
  rw [fetch_latest_release_eq]
  cases hv : fetchResult env (st.logMsg env "Fetching latest release info from GitHub to check for existing binary").fetches with
  | error e =>
    have hv' : fetchResult env st.fetches = Except.error e := by simpa using hv
    simp [hv', cacheAfter]
  | ok version =>
    have hv' : fetchResult env st.fetches = Except.ok version := by simpa using hv
    simp only [hv, hv']
    by_cases hex : env.pathExists
        (joinPath ("netcoredbg_v" ++ version.tag_name) (get_executable_name env.platform.1)) = true
    · simp [hex, cacheAfter]
    · simp only [hex]
      simp [hex, tier4_cache]

theorem tiers34_fetches_eq (env : Env) (st : St) :
    (tiers34 env st).2.fetches = st.fetches + tiers34Steps env st.fetches := by
  unfold tiers34 tiers34Steps
  dsimp only
  rw [fetch_latest_release_eq]
  cases hv : fetchResult env (st.logMsg env "Fetching latest release info from GitHub to check for existing binary").fetches with
  | error e =>
    have hv' : fetchResult env st.fetches = Except.error e := by simpa using hv
    simp [hv']
  | ok version =>
    have hv' : fetchResult env st.fetches = Except.ok version := by simpa using hv
    simp only [hv, hv']
    by_cases hex : env.pathExists
        (joinPath ("netcoredbg_v" ++ version.tag_name) (get_executable_name env.platform.1)) = true
    · simp [hex]
    · simp only [hex]
      simp [hex, tier4_fetches]

theorem get_binary_path_val (env : Env) (u : Option String) (st : St) :
    (get_binary_path env u st).1 = gbpResult env u st.cache st.fetches := by
  unfold get_binary_path gbpResult
  dsimp only
  cases u with
  | some user_path =>
    by_cases h1 : env.pathExists user_path = true
    · by_cases h2 : env.pathIsFile user_path = true <;> simp [h1, h2]
    · simp [h1]
  | none =>
    cases hc : st.cache with
    | some cached_path =>
      by_cases h1 : env.pathExists cached_path = true
      · simp [hc, h1]
      · simp [hc, h1, tiers34_val]
    | none => simp [hc, tiers34_val]

theorem get_binary_path_cache (env : Env) (u : Option String) (st : St) :
    (get_binary_path env u st).2.cache = gbpCache env u st.cache st.fetches := by
  unfold get_binary_path gbpCache
  dsimp only
  cases u with
  | some user_path =>
    by_cases h1 : env.pathExists user_path = true
    · by_cases h2 : env.pathIsFile user_path = true <;> simp [h1, h2]
    · simp [h1]
  | none =>
    cases hc : st.cache with
    | some cached_path =>
      by_cases h1 : env.pathExists cached_path = true
      · simp [hc, h1]
      · simp [hc, h1, tiers34_cache_eq]
    | none => simp [hc, tiers34_cache_eq]

theorem tiers34Steps_pos (env : Env) (n : Nat) : 1 ≤ tiers34Steps env n := by
  unfold tiers34Steps
  cases h : fetchResult env n with
  | error e => simp
  | ok v =>
    simp only
    split <;> simp

theorem isAbsolutePath_join (a b : String) (h : isAbsolutePath a = true) :
    isAbsolutePath (joinPath a b) = true := by
  unfold isAbsolutePath starts_with at h ⊢
  rw [List.isPrefixOf_iff_prefix] at h ⊢
  unfold joinPath
  have hsub : a.data <+: (a ++ "/" ++ b).data := by
    rw [String.data_append, String.data_append, List.append_assoc]
    exact List.prefix_append _ _
  exact h.trans hsub

theorem fetchResult_ok_asset (env : Env) (n : Nat) (v : AdapterVersion)
    (h : fetchResult env n = Except.ok v) :
    ∃ name, get_platform_asset_name env.platform = Except.ok name := by
  unfold fetchResult at h
  cases h1 : env.releases.getD n (Except.error "network unavailable") with
  | error e => rw [h1] at h; simp at h
  | ok release =>
    rw [h1] at h
    cases h2 : get_platform_asset_name env.platform with
    | error e => rw [h2] at h; simp at h
    | ok name => exact ⟨name, rfl⟩

theorem asset_archive (p : Os × Architecture) (name : String)
    (h : get_platform_asset_name p = Except.ok name) :
    (ends_with name ".zip" = true ∧ archive_file_type name = Except.ok DownloadedFileType.zip)
    ∨ (ends_with name ".tar.gz" = true
        ∧ archive_file_type name = Except.ok DownloadedFileType.gzipTar) := by
  obtain ⟨os, arch⟩ := p
  cases os <;> cases arch <;> simp [get_platform_asset_name] at h <;> subst h <;> decide

theorem get_binary_path_fetches (env : Env) (u : Option String) (st : St) :
    (get_binary_path env u st).2.fetches = gbpFetches env u st.cache st.fetches := by
  unfold get_binary_path gbpFetches
  dsimp only
  cases u with
  | some user_path =>
    by_cases h1 : env.pathExists user_path = true
    · by_cases h2 : env.pathIsFile user_path = true <;> simp [h1, h2]
    · simp [h1]
  | none =>
    cases hc : st.cache with
    | some cached_path =>
      by_cases h1 : env.pathExists cached_path = true
      · simp [hc, h1]
      · simp [hc, h1, tiers34_fetches_eq]
    | none => simp [hc, tiers34_fetches_eq]

/-- C1: platform asset-name computation is a pure function of (OS, architecture)
that returns exactly the table's names — linux/x86_64 ↦ netcoredbg-linux-amd64.tar.gz,
linux/aarch64 ↦ netcoredbg-linux-arm64.tar.gz, mac/x86_64 ↦ netcoredbg-osx-amd64.tar.gz,
mac/aarch64 ↦ netcoredbg-osx-arm64.tar.gz, windows/x86_64 and windows/aarch64 (fallback)
↦ netcoredbg-win64.zip — and 32-bit x86 fails with the unsupported-architecture error on
every OS. -/
theorem C1_asset_name_table :
    get_platform_asset_name (Os.linux, Architecture.x8664)
        = Except.ok "netcoredbg-linux-amd64.tar.gz"
    ∧ get_platform_asset_name (Os.linux, Architecture.aarch64)
        = Except.ok "netcoredbg-linux-arm64.tar.gz"
    ∧ get_platform_asset_name (Os.mac, Architecture.x8664)
        = Except.ok "netcoredbg-osx-amd64.tar.gz"
    ∧ get_platform_asset_name (Os.mac, Architecture.aarch64)
        = Except.ok "netcoredbg-osx-arm64.tar.gz"
    ∧ get_platform_asset_name (Os.windows, Architecture.x8664)
        = Except.ok "netcoredbg-win64.zip"
    ∧ get_platform_asset_name (Os.windows, Architecture.aarch64)
        = Except.ok "netcoredbg-win64.zip"
    ∧ ∀ os : Os, get_platform_asset_name (os, Architecture.x86)
        = Except.error "Unsupported architecture: x86 (32-bit). NetCoreDbg only supports 64-bit architectures (amd64/arm64)." := by
  refine ⟨by decide, by decide, by decide, by decide, by decide, by decide, ?_⟩
  intro os
  cases os <;> decide

/-- C2: with a user-provided path, `get_binary_path` returns it made absolute
(joined against the current working directory when relative, unchanged when
absolute) when it exists and is a regular file, the not-found error when it
does not exist, and the not-a-file error when it exists but is not a regular
file; in every case no network fetch happens, the cache slot is untouched, and
the outcome is independent of the process state (so the cache is never read). -/
theorem C2_user_override (env : Env) (st : St) (p : String) :
    (env.pathExists p = true → env.pathIsFile p = true →
      (get_binary_path env (some p) st).1
          = Except.ok (if isAbsolutePath p then p else joinPath env.cwd p)
        ∧ (get_binary_path env (some p) st).2.fetches = st.fetches
        ∧ (get_binary_path env (some p) st).2.cache = st.cache)
    ∧ (env.pathExists p = false →
      (get_binary_path env (some p) st).1
          = Except.error ("User-provided netcoredbg binary not found at: " ++ p)
        ∧ (get_binary_path env (some p) st).2.fetches = st.fetches
        ∧ (get_binary_path env (some p) st).2.cache = st.cache)
    ∧ (env.pathExists p = true → env.pathIsFile p = false →
      (get_binary_path env (some p) st).1
          = Except.error ("User-provided path is not a file: " ++ p)
        ∧ (get_binary_path env (some p) st).2.fetches = st.fetches
        ∧ (get_binary_path env (some p) st).2.cache = st.cache)
    ∧ (∀ st' : St, (get_binary_path env (some p) st').1 = (get_binary_path env (some p) st).1) := by
  refine ⟨?_, ?_, ?_, ?_⟩
  · intro h1 h2
    simp [get_binary_path_val, get_binary_path_fetches, get_binary_path_cache,
      gbpResult, gbpFetches, gbpCache, h1, h2]
  · intro h1
    simp [get_binary_path_val, get_binary_path_fetches, get_binary_path_cache,
      gbpResult, gbpFetches, gbpCache, h1]
  · intro h1 h2
    simp [get_binary_path_val, get_binary_path_fetches, get_binary_path_cache,
      gbpResult, gbpFetches, gbpCache, h1, h2]
  · intro st'
    simp [get_binary_path_val, gbpResult]

theorem C2_user_override_witness :
    (get_binary_path envW (some "bin/netcoredbg") stW).1 = Except.ok "/work/bin/netcoredbg"
    ∧ (get_binary_path envW (some "/nowhere/netcoredbg") stW).1
        = Except.error "User-provided netcoredbg binary not found at: /nowhere/netcoredbg"
    ∧ (get_binary_path envW (some "somedir") stW).1
        = Except.error "User-provided path is not a file: somedir" := by
  refine ⟨?_, ?_, ?_⟩
  · have h := ((C2_user_override envW stW "bin/netcoredbg").1 (by decide) (by decide)).1
    rw [h]; decide
  · exact ((C2_user_override envW stW "/nowhere/netcoredbg").2.1 (by decide)).1
  · exact ((C2_user_override envW stW "somedir").2.2.1 (by decide) (by decide)).1

/-- C3: with no user path, a populated cache slot whose file still exists is
returned verbatim with no network fetch; a populated slot whose file is gone
is not returned — the call falls through to tiers 3/4 (it behaves exactly as
the post-cache code) and performs at least one network fetch. -/
theorem C3_cache_tier (env : Env) (st : St) (c : String) (hc : st.cache = some c) :
    (env.pathExists c = true →
      (get_binary_path env none st).1 = Except.ok c
        ∧ (get_binary_path env none st).2.fetches = st.fetches)
    ∧ (env.pathExists c = false →
      get_binary_path env none st
          = tiers34 env ((st.logMsg env "Starting get_binary_path").logMsg env
              "Cached binary no longer exists, will re-download")
        ∧ st.fetches + 1 ≤ (get_binary_path env none st).2.fetches) := by
  constructor
  · intro h1
    simp [get_binary_path_val, get_binary_path_fetches, gbpResult, gbpFetches, hc, h1]
  · intro h1
    constructor
    · unfold get_binary_path
      simp [hc, h1]
    · rw [get_binary_path_fetches]
      unfold gbpFetches
      simp only [hc, h1]
      have := tiers34Steps_pos env st.fetches
      simp [h1]
      omega

theorem C3_cache_tier_witness :
    (get_binary_path envW none stC).1 = Except.ok "/work/bin/netcoredbg"
    ∧ 0 + 1 ≤ (get_binary_path envW none stGone).2.fetches := by
  constructor
  · exact ((C3_cache_tier envW stC "/work/bin/netcoredbg" rfl).1 (by decide)).1
  · exact ((C3_cache_tier envW stGone "/gone" rfl).2 (by decide)).2

/-- C4: reaching tier 3 (no user path, empty or stale cache slot), when the
fetched release's version directory `netcoredbg_v<tag>` already contains the
platform executable, the call returns the current working directory joined
with that executable's path inside the version directory — absolute whenever
the working directory is — after exactly one network fetch, so the
download/extraction step is never invoked. -/
theorem C4_on_disk_version (env : Env) (st : St) (ver : AdapterVersion)
    (hreach : st.cache = none ∨ ∃ c, st.cache = some c ∧ env.pathExists c = false)
    (hfetch : fetchResult env st.fetches = Except.ok ver)
    (hex : env.pathExists
        (joinPath ("netcoredbg_v" ++ ver.tag_name) (get_executable_name env.platform.1)) = true) :
    (get_binary_path env none st).1
        = Except.ok (joinPath env.cwd
            (joinPath ("netcoredbg_v" ++ ver.tag_name) (get_executable_name env.platform.1)))
    ∧ (get_binary_path env none st).2.fetches = st.fetches + 1
    ∧ (isAbsolutePath env.cwd = true →
        isAbsolutePath (joinPath env.cwd
          (joinPath ("netcoredbg_v" ++ ver.tag_name) (get_executable_name env.platform.1))) = true) := by
  have hval : (get_binary_path env none st).1 = tiers34Result env st.fetches := by
    rw [get_binary_path_val]
    unfold gbpResult
    rcases hreach with h | ⟨c, hc, hcx⟩
    · simp [h]
    · simp [hc, hcx]
  have hres : tiers34Result env st.fetches
      = Except.ok (joinPath env.cwd
          (joinPath ("netcoredbg_v" ++ ver.tag_name) (get_executable_name env.platform.1))) := by
    unfold tiers34Result
    simp [hfetch, hex]
  have hfet : (get_binary_path env none st).2.fetches = st.fetches + 1 := by
    rw [get_binary_path_fetches]
    unfold gbpFetches tiers34Steps
    rcases hreach with h | ⟨c, hc, hcx⟩
    · simp [h, hfetch, hex]
    · simp [hc, hcx, hfetch, hex]
  exact ⟨hval.trans hres, hfet, fun hcwd => isAbsolutePath_join _ _ hcwd⟩

theorem C4_on_disk_version_witness :
    (get_binary_path envW none stW).1 = Except.ok "/work/netcoredbg_v3.1.2/netcoredbg"
    ∧ (get_binary_path envW none stW).2.fetches = 1 := by
  have h := C4_on_disk_version envW stW
    { tag_name := "3.1.2", download_url := "https://example.invalid/linux" }
    (Or.inl rfl) (by decide) (by decide)
  refine ⟨?_, by simpa using h.2.1⟩
  rw [h.1]
  decide

/-- C5: when the fetched release has no asset whose name equals the computed
platform asset name, `fetch_latest_release` fails with the asset-not-found
error whose message carries the requested name and the comma-separated list of
every available asset name. -/
theorem C5_asset_not_found (env : Env) (st : St) (release : GithubRelease) (asset_name : String)
    (hrel : env.releases.getD st.fetches (Except.error "network unavailable")
        = Except.ok release)
    (hname : get_platform_asset_name env.platform = Except.ok asset_name)
    (hmiss : ∀ a ∈ release.assets, a.name ≠ asset_name) :
    (fetch_latest_release env st).1
      = Except.error ("No compatible asset found for platform. Looking for: '" ++ asset_name
          ++ "'. Available assets: ["
          ++ String.intercalate ", " (release.assets.map (fun a => a.name)) ++ "]") := by
  rw [fetch_latest_release_eq]
  unfold fetchResult
  have hfind : release.assets.find? (fun a => a.name == asset_name) = none := by
    rw [List.find?_eq_none]
    intro a ha
    simpa using hmiss a ha
  rw [List.getD_eq_getElem?_getD] at hrel
  simp [hrel, hname, hfind]

theorem C5_asset_not_found_witness :
    (fetch_latest_release envMac stW).1
      = Except.error "No compatible asset found for platform. Looking for: 'netcoredbg-osx-arm64.tar.gz'. Available assets: [netcoredbg-win64.zip]" := by
  have h := C5_asset_not_found envMac stW relWin "netcoredbg-osx-arm64.tar.gz"
    (by decide) (by decide) (by decide)
  rw [h]
  decide

/-- C6: the cache slot is write-once per process: setting an already-populated
slot is a silently-ignored no-op, and a `get_binary_path` call that starts
with a populated slot ends with the slot still holding its first value — also
when the cached file is gone and the call re-resolves through tiers 3/4. -/
theorem C6_write_once (env : Env) (u : Option String) (st : St) (c v : String)
    (hc : st.cache = some c) :
    cacheSet (some c) v = some c
    ∧ (get_binary_path env u st).2.cache = some c := by
  refine ⟨rfl, ?_⟩
  rw [get_binary_path_cache]
  unfold gbpCache
  cases u with
  | some p => simpa using hc
  | none =>
    simp only [hc]
    by_cases h : env.pathExists c = true
    · simp [h, hc]
    · simp only [h]
      cases hr : tiers34Result env st.fetches with
      | error e => simp [h, cacheAfter, hr, hc]
      | ok q => simp [h, cacheAfter, hr, cacheSet, hc]

theorem C6_write_once_witness :
    cacheSet (some "/gone") "/work/netcoredbg_v3.1.2/netcoredbg" = some "/gone"
    ∧ (get_binary_path envW none stGone).2.cache = some "/gone" :=
  C6_write_once envW none stGone "/gone" "/work/netcoredbg_v3.1.2/netcoredbg" rfl

theorem pathExists_withExec (env : Env) (b : Bool) (p : String) :
    (env.withExecBits b).pathExists p = env.pathExists p := by
  unfold Env.withExecBits Env.pathExists Env.lookupFs
  dsimp only
  rw [List.find?_map]
  rw [show ((fun (e : String × FsNode) => e.1 == resolvePath env.cwd p)
        ∘ (fun e : String × FsNode => (e.1, e.2.withExec b)))
      = (fun (e : String × FsNode) => e.1 == resolvePath env.cwd p) from rfl]
  cases hfind : env.fs.find? (fun e => e.1 == resolvePath env.cwd p) <;> simp [hfind]

theorem pathIsFile_withExec (env : Env) (b : Bool) (p : String) :
    (env.withExecBits b).pathIsFile p = env.pathIsFile p := by
  unfold Env.withExecBits Env.pathIsFile Env.lookupFs
  dsimp only
  rw [List.find?_map]
  rw [show ((fun (e : String × FsNode) => e.1 == resolvePath env.cwd p)
        ∘ (fun e : String × FsNode => (e.1, e.2.withExec b)))
      = (fun (e : String × FsNode) => e.1 == resolvePath env.cwd p) from rfl]
  cases hfind : env.fs.find? (fun e => e.1 == resolvePath env.cwd p) with
  | none => simp [hfind]
  | some x =>
    cases hx : x.2 <;> simp [FsNode.withExec, hx]

/-- C7: a logger call appends exactly one line `[<unix_seconds>] <message>`
when the log file opens, silently swallows the failure (leaving the log as it
was) when it does not, is total (it cannot return an error by type), and the
resolution outcome — returned value, cache slot and fetch count — is the same
whether or not logging succeeds. -/
theorem C7_logger (openOk : Bool) (time : Nat) (log : List String) (message : String)
    (env : Env) (u : Option String) (st : St) (b : Bool) :
    (openOk = true →
      debug_log openOk time log message = log ++ ["[" ++ toString time ++ "] " ++ message])
    ∧ (openOk = false → debug_log openOk time log message = log)
    ∧ (get_binary_path { env with logOpenOk := b } u st).1 = (get_binary_path env u st).1
    ∧ (get_binary_path { env with logOpenOk := b } u st).2.cache
        = (get_binary_path env u st).2.cache
    ∧ (get_binary_path { env with logOpenOk := b } u st).2.fetches
        = (get_binary_path env u st).2.fetches := by
  refine ⟨?_, ?_, ?_, ?_, ?_⟩
  · intro h
    subst h
    simp [debug_log, loggerDebugEnabled]
  · intro h
    subst h
    simp [debug_log, loggerDebugEnabled]
  · rw [get_binary_path_val, get_binary_path_val]
    rfl
  · rw [get_binary_path_cache, get_binary_path_cache]
    rfl
  · rw [get_binary_path_fetches, get_binary_path_fetches]
    rfl

theorem C7_logger_witness :
    debug_log true 42 [] "resolver started" = ["[42] resolver started"]
    ∧ debug_log false 42 [] "resolver started" = [] := by
  constructor
  · have h := (C7_logger true 42 [] "resolver started" envW none stW true).1 rfl
    rw [h]
    decide
  · exact (C7_logger false 42 [] "resolver started" envW none stW true).2.1 rfl

/-- C8: every asset name the program can compute ends in `.zip` or `.tar.gz`,
and the archive-kind derivation maps it to Zip respectively GzipTar — the
unsupported-file-type branch is unreachable for computed names. -/
theorem C8_archive_kind (p : Os × Architecture) (name : String)
    (h : get_platform_asset_name p = Except.ok name) :
    (ends_with name ".zip" = true ∧ archive_file_type name = Except.ok DownloadedFileType.zip)
    ∨ (ends_with name ".tar.gz" = true
        ∧ archive_file_type name = Except.ok DownloadedFileType.gzipTar) :=
  asset_archive p name h

theorem C8_archive_kind_witness :
    (ends_with "netcoredbg-osx-arm64.tar.gz" ".zip" = true
        ∧ archive_file_type "netcoredbg-osx-arm64.tar.gz" = Except.ok DownloadedFileType.zip)
    ∨ (ends_with "netcoredbg-osx-arm64.tar.gz" ".tar.gz" = true
        ∧ archive_file_type "netcoredbg-osx-arm64.tar.gz"
            = Except.ok DownloadedFileType.gzipTar) :=
  C8_archive_kind (Os.mac, Architecture.aarch64) "netcoredbg-osx-arm64.tar.gz" (by decide)

/-- C9: a resolution that reaches tier 4 performs the release-metadata fetch
twice — once in tier 3 and once inside the download step — and the version
directory of the downloaded binary is named from the tag of the second fetch,
not the first. -/
theorem C9_double_fetch (env : Env) (st : St) (ver0 ver1 : AdapterVersion)
    (hreach : st.cache = none ∨ ∃ c, st.cache = some c ∧ env.pathExists c = false)
    (h0 : fetchResult env st.fetches = Except.ok ver0)
    (hmiss : env.pathExists
        (joinPath ("netcoredbg_v" ++ ver0.tag_name) (get_executable_name env.platform.1)) = false)
    (h1 : fetchResult env (st.fetches + 1) = Except.ok ver1)
    (htmp : env.tempDirOk = true) (hdl : env.downloadOk = true) (hmk : env.mkdirOk = true)
    (hcp : env.copyOk = true) (hae : env.archiveHasExe = true) (hmx : env.makeExecOk = true) :
    (get_binary_path env none st).2.fetches = st.fetches + 2
    ∧ (get_binary_path env none st).1
        = Except.ok (joinPath env.cwd
            (joinPath ("netcoredbg_v" ++ ver1.tag_name) (get_executable_name env.platform.1))) := by
  obtain ⟨name, hname⟩ := fetchResult_ok_asset env (st.fetches + 1) ver1 h1
  have hdlr : downloadResult env (st.fetches + 1)
      = Except.ok (joinPath env.cwd
          (joinPath ("netcoredbg_v" ++ ver1.tag_name) (get_executable_name env.platform.1))) := by
    unfold downloadResult
    rcases asset_archive env.platform name hname with ⟨_, ha⟩ | ⟨_, ha⟩ <;>
      simp [h1, hname, ha, htmp, hdl, hmk, hcp, hae, hmx]
  constructor
  · rw [get_binary_path_fetches]
    unfold gbpFetches tiers34Steps
    rcases hreach with h | ⟨c, hc, hcx⟩
    · simp [h, h0, hmiss]
    · simp [hc, hcx, h0, hmiss]
  · rw [get_binary_path_val]
    unfold gbpResult tiers34Result
    rcases hreach with h | ⟨c, hc, hcx⟩
    · simp [h, h0, hmiss, hdlr]
    · simp [hc, hcx, h0, hmiss, hdlr]

theorem C9_double_fetch_witness :
    (get_binary_path envC9 none stW).2.fetches = 2
    ∧ (get_binary_path envC9 none stW).1 = Except.ok "/work/netcoredbg_v2.0.0/netcoredbg" := by
  have h := C9_double_fetch envC9 stW
    { tag_name := "1.0.0", download_url := "https://example.invalid/a" }
    { tag_name := "2.0.0", download_url := "https://example.invalid/b" }
    (Or.inl rfl) (by decide) (by decide) (by decide) rfl rfl rfl rfl rfl rfl
  refine ⟨h.1, ?_⟩
  rw [h.2]
  decide

/-- C10: `validate_binary` succeeds exactly when the path exists and is a
regular file, returns the not-found error when it does not exist and the
not-a-file error when it exists but is not a regular file, and its outcome is
unchanged when every executable-permission bit in the filesystem is
overwritten, so it never reads the permission bit (and, being a pure function
of the environment, modifies no state). -/
theorem C10_validate (env : Env) (p : String) (b : Bool) :
    (validate_binary env p = Except.ok ()
      ↔ env.pathExists p = true ∧ env.pathIsFile p = true)
    ∧ (env.pathExists p = false →
        validate_binary env p = Except.error ("netcoredbg binary not found at: " ++ p))
    ∧ (env.pathExists p = true → env.pathIsFile p = false →
        validate_binary env p = Except.error ("netcoredbg path is not a file: " ++ p))
    ∧ validate_binary (env.withExecBits b) p = validate_binary env p := by
  refine ⟨?_, ?_, ?_, ?_⟩
  · unfold validate_binary
    by_cases h1 : env.pathExists p = true <;> by_cases h2 : env.pathIsFile p = true <;>
      simp [h1, h2]
  · intro h1
    unfold validate_binary
    simp [h1]
  · intro h1 h2
    unfold validate_binary
    simp [h1, h2]
  · unfold validate_binary
    rw [pathExists_withExec, pathIsFile_withExec]

theorem C10_validate_witness :
    (validate_binary envW "bin/netcoredbg" = Except.ok ()
      ↔ envW.pathExists "bin/netcoredbg" = true ∧ envW.pathIsFile "bin/netcoredbg" = true)
    ∧ validate_binary envW "/nowhere" = Except.error "netcoredbg binary not found at: /nowhere"
    ∧ validate_binary envW "somedir" = Except.error "netcoredbg path is not a file: somedir"
    ∧ validate_binary (envW.withExecBits false) "bin/netcoredbg"
        = validate_binary envW "bin/netcoredbg" := by
  have h1 := C10_validate envW "bin/netcoredbg" false
  have h2 := C10_validate envW "/nowhere" false
  have h3 := C10_validate envW "somedir" false
  exact ⟨h1.1, h2.2.1 (by decide), h3.2.2.1 (by decide) (by decide), h1.2.2.2⟩
